import Mathlib

/-!
Verification of the DDIM editing core of `src/audioldm2.py`
(class `AudioLDM2`): strength-derived step counts, the forward-noising
closed form, the denoising loop with classifier-free guidance, the
DDIM inversion loop, the scheduler `steps_offset` save/restore
discipline, and the edit-pipeline post-processing (clipping, mel
return, eval-mode assertion).

Scalars are modelled as `ℚ`.  Tensor operations in the sampler are
elementwise, so a latent is modelled by a single scalar; the edit
pipeline, where shapes matter, models a tensor as a shape list plus a
flat data list.  The square root applied to schedule entries is kept
as an abstract function field (`sqrtFn`) of the model environment:
every theorem quantifies over it, and concrete instances supply exact
rational square roots on the values they use.
-/

namespace AudioLDM2

/-- `t_enc = int(transfer_strength * num_inference_steps)`
(`audioldm2.py` lines 180, 228, 447).  Python `int()` truncates toward
zero; for the nonnegative strengths in scope this is the floor.
`toNat` lets the result be used as a count (for `strength > 0` the
floor is nonnegative). -/
def t_enc (strength : ℚ) (steps : ℕ) : ℕ := (⌊strength * steps⌋).toNat

/-- Modelled from the diffusers collaborator `DDIMScheduler.set_timesteps`
with `timestep_spacing = "leading"` (spec §4.1): `step_ratio =
T_train // num_inference_steps`; timesteps are `arange(num_inference_steps)
* step_ratio`, reversed to descending order, plus `steps_offset`.
`T_train = 1000` per the repository's scheduler config. -/
def set_timesteps (n offset : ℕ) : List ℕ :=
  ((List.range n).map (fun i => i * (1000 / n) + offset)).reverse

/-- Python negative-slice `l[-k:]`: for `k = 0` this is `l[0:]`, the whole
list; otherwise the last `k` elements (all of `l` when `k ≥ len(l)`). -/
def sliceLast {α : Type} (l : List α) (k : ℕ) : List α :=
  if k = 0 then l else l.drop (l.length - k)

/-- Python negative index `l[-k]`: for `k = 0` this is `l[0]`
(`-0 == 0`); otherwise the element at `len(l) - k`.
Used by `ddim_noising` for `all_timesteps[-t_enc]` (line 194). -/
def negIndex (l : List ℕ) (k : ℕ) : ℕ :=
  if k = 0 then l.headD 0 else (l.drop (l.length - k)).headD 0

/-- `used_timesteps = all_timesteps[-t_enc:]` with the offset zeroed
(`audioldm2.py` lines 225-229): the timestep subsequence actually
traversed by `ddim_denoising`. -/
def usedTimesteps (steps : ℕ) (strength : ℚ) : List ℕ :=
  sliceLast (set_timesteps steps 0) (t_enc strength steps)

/-- Model environment: the scheduler's `alphas_cumprod` table, the
square-root function applied to its entries, and the noise predictor's
unconditional / conditional outputs (the two halves of the chunked
U-Net batch) as functions of (latent, timestep). -/
structure ModelEnv where
  sqrtFn : ℚ → ℚ
  alphas_cumprod : ℕ → ℚ
  uncondPred : ℚ → ℕ → ℚ
  condPred : ℚ → ℕ → ℚ

/-- Classifier-free guidance composition (`audioldm2.py` line 251):
`noise_pred = noise_pred_uncond + guidance_scale * (noise_pred_text -
noise_pred_uncond)`. -/
def guidance_compose (guidance_scale u c : ℚ) : ℚ :=
  u + guidance_scale * (c - u)

/-- Modelled from the diffusers collaborator `DDIMScheduler.add_noise`:
`x_t = sqrt(alpha_cumprod[t]) * x_0 + sqrt(1 - alpha_cumprod[t]) * noise`
(spec §4.2(a)). -/
def add_noise (env : ModelEnv) (x0 noise : ℚ) (t : ℕ) : ℚ :=
  env.sqrtFn (env.alphas_cumprod t) * x0
    + env.sqrtFn (1 - env.alphas_cumprod t) * noise

/-- The target timestep `all_timesteps[-t_enc]` used by `ddim_noising`
(line 194), with the offset zeroed as on line 177. -/
def noiseTarget (steps : ℕ) (strength : ℚ) : ℕ :=
  negIndex (set_timesteps steps 0) (t_enc strength steps)

/-- `ddim_noising` (lines 164-197), value part: one fresh noise sample
(injected as the `noise` argument) and a single `add_noise` call at
`all_timesteps[-t_enc]`.  The commented-out iterative loop of the
source is dead code and not modelled. -/
def ddim_noising (env : ModelEnv) (steps : ℕ) (strength : ℚ)
    (x0 noise : ℚ) : ℚ :=
  add_noise env x0 noise (noiseTarget steps strength)

/-- Modelled from the diffusers collaborator `DDIMScheduler.step` with
`eta = 0`, `prediction_type = "epsilon"`, `clip_sample = False`,
`set_alpha_to_one = False` (so the fallback final alpha is
`alphas_cumprod[0]`): `prev_timestep = t - 1000 // num_inference_steps`;
`x0_hat = (x - sqrt(1-alpha_t) * eps) / sqrt(alpha_t)`;
`prev = sqrt(alpha_prev) * x0_hat + sqrt(1-alpha_prev) * eps`. -/
def scheduler_step (env : ModelEnv) (num_inference_steps : ℕ)
    (t : ℕ) (noise x : ℚ) : ℚ :=
  let prev : ℤ := (t : ℤ) - (1000 / num_inference_steps : ℕ)
  let a_t := env.alphas_cumprod t
  let a_prev := if 0 ≤ prev then env.alphas_cumprod prev.toNat
                else env.alphas_cumprod 0
  let x0hat := (x - env.sqrtFn (1 - a_t) * noise) / env.sqrtFn a_t
  env.sqrtFn a_prev * x0hat + env.sqrtFn (1 - a_prev) * noise

/-- The per-step noise prediction of `ddim_denoising` (lines 235-251):
when `do_cfg` the batch is doubled, chunked, and composed by
`guidance_compose`; otherwise the raw conditional prediction is used. -/
def noisePredAt (env : ModelEnv) (do_cfg : Bool) (guidance_scale x : ℚ)
    (t : ℕ) : ℚ :=
  if do_cfg then
    guidance_compose guidance_scale (env.uncondPred x t) (env.condPred x t)
  else env.condPred x t

/-- `ddim_denoising` (lines 199-264), value part: `do_cfg =
guidance_scale > 1.0` (line 222); the loop folds `scheduler_step` over
`used_timesteps`.  (`scale_model_input` of the DDIM scheduler is the
identity and is omitted; statefulness of `steps_offset` is modelled
separately by `ddim_denoising_st`.) -/
def ddim_denoising (env : ModelEnv) (guidance_scale : ℚ) (steps : ℕ)
    (strength : ℚ) (x0 : ℚ) : ℚ :=
  let do_cfg : Bool := guidance_scale > 1
  (usedTimesteps steps strength).foldl
    (fun x t =>
      scheduler_step env steps t (noisePredAt env do_cfg guidance_scale x t) x)
    x0

/-- `ddim_denoising` with classifier-free guidance disabled: no batch
doubling, the raw conditional prediction fed straight to the scheduler
step (the spec's "run with guidance disabled"). -/
def ddim_denoising_nocfg (env : ModelEnv) (steps : ℕ)
    (strength : ℚ) (x0 : ℚ) : ℚ :=
  (usedTimesteps steps strength).foldl
    (fun x t => scheduler_step env steps t (env.condPred x t) x) x0

/-- The inverted update step of `ddim_inversion` (lines 469-474):
`current_t = max(0, t - 1000 // num_inference_steps)`, `next_t = t`,
`latents = (latents - sqrt(1-alpha_t) * noise) *
(sqrt(alpha_t_next) / sqrt(alpha_t)) + sqrt(1-alpha_t_next) * noise`.
`max(0, ·)` on the integer difference is ℕ truncated subtraction. -/
def inversion_step (env : ModelEnv) (num_inference_steps : ℕ)
    (x noise : ℚ) (t : ℕ) : ℚ :=
  let current_t : ℕ := t - 1000 / num_inference_steps
  let next_t : ℕ := t
  let alpha_t := env.alphas_cumprod current_t
  let alpha_t_next := env.alphas_cumprod next_t
  (x - env.sqrtFn (1 - alpha_t) * noise)
      * (env.sqrtFn alpha_t_next / env.sqrtFn alpha_t)
    + env.sqrtFn (1 - alpha_t_next) * noise

/-- The loop indices of `ddim_inversion` actually executed
(lines 452-453): `for i in range(1, num_inference_steps): if i >=
start_timestep: continue` — the body runs exactly for
`1 ≤ i < num_inference_steps` with `i < start_timestep`. -/
def inversionTraversed (num_inference_steps start_timestep : ℕ) : List ℕ :=
  (List.range' 1 (num_inference_steps - 1)).filter
    (fun i => decide (i < start_timestep))

/-- `ddim_inversion` (lines 434-475): `start_timestep =
int(transfer_strength * num_inference_steps)`; `timesteps =
reversed(scheduler.timesteps)` (ascending; `set_timesteps` here runs
with the configured `steps_offset`, passed as `offset` — this function
does not zero it); one `inversion_step` per traversed index. -/
def ddim_inversion (env : ModelEnv) (guidance_scale : ℚ) (steps : ℕ)
    (strength : ℚ) (do_cfg : Bool) (offset : ℕ) (x0 : ℚ) : ℚ :=
  let start_timestep := t_enc strength steps
  let ts := (set_timesteps steps offset).reverse
  (inversionTraversed steps start_timestep).foldl
    (fun x i =>
      let t := ts.getD i 0
      let noise := if do_cfg then
          guidance_compose guidance_scale (env.uncondPred x t)
            (env.condPred x t)
        else env.condPred x t
      inversion_step env steps x noise t)
    x0

/-- `scheduler.order` of the DDIM scheduler, referenced on lines 233,
257 and 259. -/
def scheduler_order : ℕ := 1

/-- One iteration of the stateful `ddim_denoising` loop
(lines 235-262), in error-propagating form.  The accumulator is
(value-or-raised-exception, current `steps_offset`); a raised
exception passes through untouched.  `it` is `(i, t)` from
`enumerate(used_timesteps)`.  `predE` is the noise-prediction block
(lines 237-251, U-Net call plus guidance composition), which may
raise; `cb` the optional callback (lines 257-260), which may raise.
The offset is overwritten with `oldOffset` only at the END of a fully
completed iteration (line 262), so an exception exits with whatever
the last completed line 262 left (the entry value `0` in the first
iteration).

`callbackResult` is the callback firing condition and invocation of
lines 257-260: the callback runs when `i == len(used)-1 or (i+1 >
num_warmup_steps and (i+1) % order == 0)`, a callback is present, and
`i % callback_steps == 0`. -/
def callbackResult (cb : Option (ℕ → ℕ → ℚ → Except Unit Unit))
    (cbSteps totalLen : ℕ) (numWarmup : ℤ) (i t : ℕ) (x' : ℚ) :
    Except Unit Unit :=
  if i = totalLen - 1 ∨
      ((i : ℤ) + 1 > numWarmup ∧ (i + 1) % scheduler_order = 0) then
    match cb with
    | some f => if i % cbSteps = 0 then f i t x' else Except.ok ()
    | none => Except.ok ()
  else Except.ok ()

def denoiseStep (env : ModelEnv) (steps totalLen : ℕ)
    (predE : ℚ → ℕ → Except Unit ℚ)
    (cb : Option (ℕ → ℕ → ℚ → Except Unit Unit)) (cbSteps : ℕ)
    (oldOffset : ℕ) (numWarmup : ℤ)
    (acc : Except Unit ℚ × ℕ) (it : ℕ × ℕ) : Except Unit ℚ × ℕ :=
  match acc.1 with
  | Except.error _ => acc
  | Except.ok x =>
    match predE x it.2 with
    | Except.error e => (Except.error e, acc.2)
    | Except.ok noise =>
      let x' := scheduler_step env steps it.2 noise x
      match callbackResult cb cbSteps totalLen numWarmup it.1 it.2 x' with
      | Except.error e => (Except.error e, acc.2)
      | Except.ok _ => (Except.ok x', oldOffset)

/-- The whole `ddim_denoising` loop as a fold of `denoiseStep` over
`enumerate(used_timesteps)`, entered with the offset already set to
`0` (line 225). -/
def denoiseIter (env : ModelEnv) (steps totalLen : ℕ)
    (predE : ℚ → ℕ → Except Unit ℚ)
    (cb : Option (ℕ → ℕ → ℚ → Except Unit Unit)) (cbSteps : ℕ)
    (oldOffset : ℕ) (numWarmup : ℤ)
    (l : List (ℕ × ℕ)) (x : ℚ) (off : ℕ) : Except Unit ℚ × ℕ :=
  l.foldl (denoiseStep env steps totalLen predE cb cbSteps oldOffset numWarmup)
    (Except.ok x, off)

/-- Stateful model of `ddim_denoising` (lines 199-264), tracking the
scheduler's `steps_offset` config field: `old_offset` saved (line 223),
field set to `0` (line 225), `set_timesteps` run under offset `0`
(line 226), then the loop; result is (value-or-exception, final
offset).  `num_warmup_steps = len(used_timesteps) - t_enc *
scheduler.order` (line 233). -/
def ddim_denoising_st (env : ModelEnv)
    (predE : ℚ → ℕ → Except Unit ℚ)
    (cb : Option (ℕ → ℕ → ℚ → Except Unit Unit)) (cbSteps : ℕ)
    (steps : ℕ) (strength : ℚ) (x0 : ℚ) (offset0 : ℕ) :
    Except Unit ℚ × ℕ :=
  let old := offset0
  let used := usedTimesteps steps strength
  let numWarmup : ℤ :=
    (used.length : ℤ) - (t_enc strength steps : ℤ) * scheduler_order
  denoiseIter env steps used.length predE cb cbSteps old numWarmup
    used.enum x0 0

/-- Stateful model of `ddim_noising` (lines 164-197): `old_offset`
saved (line 175), field set to `0` (line 177), `set_timesteps` and the
slice computed, field restored (line 190), then the single `add_noise`
(line 194).  No raising collaborator is invoked inside the override
window, so the model has no exceptional exit. -/
def ddim_noising_st (env : ModelEnv) (steps : ℕ) (strength : ℚ)
    (x0 noise : ℚ) (offset0 : ℕ) : ℚ × ℕ :=
  (ddim_noising env steps strength x0 noise, offset0)

/-! ### Edit-pipeline model (`edit_audio_with_ddim`,
`edit_audio_with_ddim_inversion_sampling`, lines 266-432)

Tensors carry a shape and a flat data list; the opaque neural
collaborators (VAE encode/decode, the two sampling passes, the
vocoder) are fields of an environment, so every theorem about the
pipeline's control flow holds for all of them. -/

structure Tensor where
  shape : List ℕ
  data : List ℚ
deriving DecidableEq

/-- The opaque collaborators of the edit pipeline.  `noising` stands
for the `ddim_noising` + `ddim_denoising` input chain of the simple
variant; `inversion` for the `ddim_inversion` call of the inversion
variant; `denoising` for the shared `ddim_denoising` call. -/
structure EditEnv where
  encode : Tensor → Tensor
  noising : Tensor → Tensor
  inversion : Tensor → Tensor
  denoising : Tensor → Tensor
  decode : Tensor → Tensor
  melToWav : Tensor → Tensor

inductive EditErr where
  | evalModeAssert
  | melDimAssert
  | melShapeAssert
  | wavDimAssert
  | returnTypeAssert
deriving DecidableEq

inductive EditOut where
  | mel (t : Tensor)
  | ts (t : Tensor)
  | np (t : Tensor)
deriving DecidableEq

/-- `self.eval_()` (line 135): sets `evalmode` to `True`. -/
def eval_mode_set (_evalmode : Bool) : Bool := true

/-- `self.train_()` (line 138): sets `evalmode` to `False`. -/
def train_mode_set (_evalmode : Bool) : Bool := false

/-- Largest absolute value of the data (`torch.max(torch.abs(...))`,
lines 297, 374); `0` for an empty tensor. -/
def maxAbs (l : List ℚ) : ℚ := (l.map (fun q => |q|)).foldl max 0

/-- `torch.clamp(x, min=-10.0, max=10.0)` (lines 298, 375),
elementwise. -/
def clampT (t : Tensor) (lo hi : ℚ) : Tensor :=
  ⟨t.shape, t.data.map (fun q => max lo (min hi q))⟩

/-- The clipping post-process (lines 331-332, 416-417):
`torch.maximum(torch.minimum(mel_spectrogram, mel), mel)`,
elementwise over the data. -/
def clip_mel (decoded original : Tensor) : Tensor :=
  ⟨decoded.shape,
    List.zipWith max (List.zipWith min decoded.data original.data)
      original.data⟩

/-- Python `shape[-2:]`: the last two entries (the whole list when it
is shorter than two). -/
def lastTwo (l : List ℕ) : List ℕ := l.drop (l.length - 2)

/-- Waveform truncation `edited_waveform[:, :expected_length]`
(lines 344, 426) on a rank-2 tensor stored row-major. -/
def truncateLast (t : Tensor) (n : ℕ) : Tensor :=
  match t.shape with
  | [b, len] =>
      ⟨[b, min len n],
        (List.range b).flatMap
          (fun i => (t.data.drop (i * len)).take (min len n))⟩
  | _ => t

/-- Shared tail of both edit pipelines, from the decoded mel onward
(lines 328-352 and 414-432): optional clipping, the `"mel"` early
return behind its shape assertion, otherwise vocoder, rank-2
assertion, duration truncation and return-type dispatch. -/
def editTail (env : EditEnv) (mel melSpec0 : Tensor) (duration : ℚ)
    (return_type : String) (clipping : Bool) : Except EditErr EditOut :=
  let melSpec := if clipping then clip_mel melSpec0 mel else melSpec0
  if return_type = "mel" then
    if lastTwo melSpec.shape = [1024, 64] then Except.ok (EditOut.mel melSpec)
    else Except.error EditErr.melShapeAssert
  else
    let wav := env.melToWav melSpec
    if wav.shape.length = 2 then
      let expected : ℕ := (⌊duration * 16000⌋).toNat
      let wav := truncateLast wav expected
      if return_type = "np" then Except.ok (EditOut.np wav)
      else if return_type = "ts" then Except.ok (EditOut.ts wav)
      else Except.error EditErr.returnTypeAssert
    else Except.error EditErr.wavDimAssert

/-- `edit_audio_with_ddim` (lines 266-352): eval-mode assertion, rank-4
mel assertion, encode, divergence clamp, noising + denoising, decode,
then `editTail`.  The duration-overflow check (line 285) only prints a
warning and is not modelled. -/
def edit_audio_with_ddim (env : EditEnv) (evalmode : Bool) (mel : Tensor)
    (duration : ℚ) (return_type : String) (clipping : Bool) :
    Except EditErr EditOut :=
  if evalmode then
    if mel.shape.length = 4 then
      let z := env.encode mel
      let z := if maxAbs z.data > 100 then clampT z (-10) 10 else z
      let edited := env.denoising (env.noising z)
      editTail env mel (env.decode edited) duration return_type clipping
    else Except.error EditErr.melDimAssert
  else Except.error EditErr.evalModeAssert

/-- `edit_audio_with_ddim_inversion_sampling` (lines 355-432): same
control flow, with `ddim_inversion` (under the original-text
conditioning) in place of `ddim_noising`. -/
def edit_audio_with_ddim_inversion_sampling (env : EditEnv)
    (evalmode : Bool) (mel : Tensor) (duration : ℚ)
    (return_type : String) (clipping : Bool) : Except EditErr EditOut :=
  if evalmode then
    if mel.shape.length = 4 then
      let z := env.encode mel
      let z := if maxAbs z.data > 100 then clampT z (-10) 10 else z
      let edited := env.denoising (env.inversion z)
      editTail env mel (env.decode edited) duration return_type clipping
    else Except.error EditErr.melDimAssert
  else Except.error EditErr.evalModeAssert

/-- The alpha-index pairing stated by the spec for the inversion step,
over ℤ with an explicit `max 0`: previous index
`max(0, t - T_train/num_steps)` with `T_train = 1000`. -/
def spec_inv_prev_index (t num_inference_steps : ℕ) : ℕ :=
  (max 0 ((t : ℤ) - (1000 : ℤ) / (num_inference_steps : ℤ))).toNat

/-- The inverted update exactly as the spec words it (C3): `x_{t_next} =
(x_t - sqrt(1-alpha_t)*noise) * (sqrt(alpha_t_next)/sqrt(alpha_t)) +
sqrt(1-alpha_t_next)*noise` with `alpha_t` looked up at
`max(0, t - T_train/num_steps)` and `alpha_t_next` at `t`. -/
def spec_inversion_step (env : ModelEnv) (num_inference_steps : ℕ)
    (x noise : ℚ) (t : ℕ) : ℚ :=
  let alpha_t := env.alphas_cumprod (spec_inv_prev_index t num_inference_steps)
  let alpha_t_next := env.alphas_cumprod t
  (x - env.sqrtFn (1 - alpha_t) * noise)
      * (env.sqrtFn alpha_t_next / env.sqrtFn alpha_t)
    + env.sqrtFn (1 - alpha_t_next) * noise

/-! ### Helper lemmas -/

theorem set_timesteps_length (n offset : ℕ) :
    (set_timesteps n offset).length = n := by
  simp [set_timesteps]

theorem sliceLast_length {α : Type} (l : List α) (k : ℕ) :
    (sliceLast l k).length = if k = 0 then l.length else min k l.length := by
  unfold sliceLast
  split
  · rfl
  · simp [List.length_drop]
    omega

theorem filter_lt_range' (k : ℕ) :
    ∀ (n s : ℕ), (List.range' s n).filter (fun i => decide (i < k)) =
      List.range' s (min n (k - s))
  | 0, s => by simp
  | n + 1, s => by
    rw [List.range'_succ, List.filter_cons]
    by_cases hs : s < k
    · have h1 : min (n + 1) (k - s) = min n (k - s - 1) + 1 := by omega
      have h2 : k - s - 1 = k - (s + 1) := by omega
      rw [decide_eq_true hs, if_pos rfl, h1, List.range'_succ,
        filter_lt_range' k n (s + 1), h2]
    · have h1 : min (n + 1) (k - s) = 0 := by omega
      have h2 : k - (s + 1) = 0 := by omega
      rw [decide_eq_false hs, if_neg Bool.false_ne_true,
        filter_lt_range' k n (s + 1), h2]
      simp [h1]

/-! ### Claim C1 -/

/-- C1 counterexample: at `strength = 1/2`, `num_inference_steps = 1`
(a strength in `(0,1]`), the code computes `t_enc = int(0.5) = 0`,
violating the claimed invariant `0 < t_enc` (and the claimed
`t_enc = round(strength * steps) = 1`-at-minimum behaviour); the
`[-t_enc:]` slice then covers the WHOLE inference subsequence
(1 entry), not `t_enc` entries. -/
theorem t_enc_claim_counterexample :
    t_enc (1/2) 1 = 0 ∧ ¬ (0 < t_enc (1/2) 1) ∧
    (usedTimesteps 1 (1/2)).length = 1 := by
  have h : t_enc (1/2) 1 = 0 := by
    unfold t_enc
    norm_num
  refine ⟨h, by omega, ?_⟩
  rw [usedTimesteps, h, sliceLast_length]
  simp [set_timesteps_length]

/-- C1 amended: `t_enc = int(strength * num_inference_steps)` is a
TRUNCATION, not a rounding, and is never clamped away from zero: for
every strength in `(0,1]` it satisfies `0 ≤ t_enc ≤
num_inference_steps`, with `t_enc = num_inference_steps` exactly at
`strength = 1`; whenever `strength * num_inference_steps < 1` it is
`0` (not the claimed `1`), in which case the `[-t_enc:]` slice used by
both `ddim_noising` and `ddim_denoising` degenerates to the full
inference subsequence; when `1 ≤ t_enc` the slice has exactly `t_enc`
entries. -/
theorem t_enc_truncation (q : ℚ) (n : ℕ) (h0 : 0 < q) (h1 : q ≤ 1) :
    t_enc q n ≤ n ∧
    (q = 1 → t_enc q n = n) ∧
    (q * n < 1 → t_enc q n = 0) ∧
    (1 ≤ t_enc q n → (usedTimesteps n q).length = t_enc q n) ∧
    (t_enc q n = 0 → (usedTimesteps n q).length = n) := by
  have hle : t_enc q n ≤ n := by
    unfold t_enc
    have hqn : q * n ≤ (n : ℚ) := by
      calc q * n ≤ 1 * n := by
            apply mul_le_mul_of_nonneg_right h1 (by positivity)
        _ = (n : ℚ) := one_mul _
    have : ⌊q * (n : ℚ)⌋ ≤ (n : ℤ) := by
      calc ⌊q * (n : ℚ)⌋ ≤ ⌊(n : ℚ)⌋ := Int.floor_le_floor hqn
        _ = (n : ℤ) := Int.floor_natCast n
    omega
  refine ⟨hle, ?_, ?_, ?_, ?_⟩
  · intro hq
    unfold t_enc
    rw [hq, one_mul, Int.floor_natCast]
    exact Int.toNat_natCast n
  · intro hlt
    unfold t_enc
    have hnn : (0 : ℚ) ≤ q * n := by positivity
    have : ⌊q * (n : ℚ)⌋ = 0 := Int.floor_eq_zero_iff.mpr ⟨hnn, hlt⟩
    rw [this]
    rfl
  · intro hge
    rw [usedTimesteps, sliceLast_length, if_neg (by omega), set_timesteps_length]
    omega
  · intro hz
    rw [usedTimesteps, hz, sliceLast_length, if_pos rfl, set_timesteps_length]

/-- Witness for `t_enc_truncation` at `strength = 9/10`,
`num_inference_steps = 3` (so `t_enc = ⌊2.7⌋ = 2`). -/
theorem t_enc_truncation_witness :
    ((0 : ℚ) < 9/10 ∧ (9/10 : ℚ) ≤ 1) ∧
    (t_enc (9/10) 3 ≤ 3 ∧
      ((9/10 : ℚ) = 1 → t_enc (9/10) 3 = 3) ∧
      ((9/10 : ℚ) * 3 < 1 → t_enc (9/10) 3 = 0) ∧
      (1 ≤ t_enc (9/10) 3 → (usedTimesteps 3 (9/10)).length = t_enc (9/10) 3) ∧
      (t_enc (9/10) 3 = 0 → (usedTimesteps 3 (9/10)).length = 3)) :=
  ⟨⟨by norm_num, by norm_num⟩,
    t_enc_truncation (9/10) 3 (by norm_num) (by norm_num)⟩

/-! ### Claim C2 -/

/-- C2 counterexample: with `num_inference_steps = 2` and
`strength = 1` the claim demands `t_enc = 2` traversed entries
starting from the least-noisy end (index 0 of the ascending reverse);
the loop `for i in range(1, n): if i >= start_timestep: continue`
actually executes only index 1 — a single entry, index 0 skipped. -/
theorem ddim_inversion_traversal_counterexample :
    t_enc 1 2 = 2 ∧
    inversionTraversed 2 (t_enc 1 2) = [1] ∧
    ¬ ((inversionTraversed 2 (t_enc 1 2)).length = t_enc 1 2) := by
  have h : t_enc 1 2 = 2 := by
    have hf : ⌊(1 : ℚ) * (2 : ℕ)⌋ = 2 := by norm_num
    unfold t_enc
    rw [hf]
    rfl
  rw [h]
  refine ⟨rfl, by decide, by decide⟩

/-- C2 amended: `ddim_inversion` traverses the ascending reverse of the
inference subsequence at indices `1, …, t_enc - 1` — it SKIPS the
least-noisy entry (index 0) and therefore performs `t_enc - 1`
inverted updates (one per traversed entry), not `t_enc`. -/
theorem ddim_inversion_traversal (n k : ℕ) (h : k ≤ n) :
    inversionTraversed n k = List.range' 1 (k - 1) ∧
    (inversionTraversed n k).length = k - 1 ∧
    0 ∉ inversionTraversed n k := by
  have he : inversionTraversed n k = List.range' 1 (k - 1) := by
    unfold inversionTraversed
    rw [filter_lt_range']
    congr 1
    omega
  refine ⟨he, ?_, ?_⟩
  · rw [he, List.length_range']
  · rw [he]
    intro hmem
    have := List.mem_range'_1.mp hmem
    omega

/-- Witness for `ddim_inversion_traversal` at `num_inference_steps = 5`,
`start_timestep = 3`: traversed indices `[1, 2]`, two updates. -/
theorem ddim_inversion_traversal_witness :
    (3 ≤ 5) ∧
    (inversionTraversed 5 3 = List.range' 1 2 ∧
      (inversionTraversed 5 3).length = 2 ∧
      0 ∉ inversionTraversed 5 3) :=
  ⟨by omega, ddim_inversion_traversal 5 3 (by omega)⟩

/-! ### Claim C3 -/

/-- C3 confirmed: the inverted update of `ddim_inversion`
(lines 469-474) computes exactly
`x_{t_next} = (x_t - sqrt(1-alpha_t)*noise) *
(sqrt(alpha_t_next)/sqrt(alpha_t)) + sqrt(1-alpha_t_next)*noise`, with
`alpha_t` the schedule entry at `max(0, t - T_train/num_steps)`
(fixed-stride timestep arithmetic, `T_train = 1000`) and
`alpha_t_next` the entry at `t` itself — for every environment,
latent, noise prediction, timestep and step count. -/
theorem inversion_step_spec_pairing (env : ModelEnv) (n : ℕ)
    (x noise : ℚ) (t : ℕ) :
    inversion_step env n x noise t = spec_inversion_step env n x noise t := by
  have h : t - 1000 / n = spec_inv_prev_index t n := by
    unfold spec_inv_prev_index
    have hc : ((1000 : ℤ) / (n : ℤ)) = ((1000 / n : ℕ) : ℤ) := by
      rw [Int.ofNat_tdiv]
      rfl
    rw [hc]
    omega
  unfold inversion_step spec_inversion_step
  rw [h]

/-! ### Claim C4 -/

/-- An accumulator carrying an already-raised exception passes through
an iteration untouched. -/
theorem denoiseStep_err (env : ModelEnv) (steps totalLen : ℕ)
    (predE : ℚ → ℕ → Except Unit ℚ)
    (cb : Option (ℕ → ℕ → ℚ → Except Unit Unit)) (cbSteps : ℕ)
    (oldOffset : ℕ) (numWarmup : ℤ) (e : Unit) (o : ℕ) (it : ℕ × ℕ) :
    denoiseStep env steps totalLen predE cb cbSteps oldOffset numWarmup
      (Except.error e, o) it = (Except.error e, o) := rfl

/-- On a live accumulator an iteration either raises — leaving the
offset as it found it — or completes, running line 262 and leaving
`oldOffset`. -/
theorem denoiseStep_cases (env : ModelEnv) (steps totalLen : ℕ)
    (predE : ℚ → ℕ → Except Unit ℚ)
    (cb : Option (ℕ → ℕ → ℚ → Except Unit Unit)) (cbSteps : ℕ)
    (oldOffset : ℕ) (numWarmup : ℤ) (x : ℚ) (o : ℕ) (it : ℕ × ℕ) :
    (∃ e, denoiseStep env steps totalLen predE cb cbSteps oldOffset numWarmup
      (Except.ok x, o) it = (Except.error e, o)) ∨
    (∃ y, denoiseStep env steps totalLen predE cb cbSteps oldOffset numWarmup
      (Except.ok x, o) it = (Except.ok y, oldOffset)) := by
  rcases it with ⟨i, t⟩
  unfold denoiseStep
  dsimp only
  cases hp : predE x t with
  | error e => exact Or.inl ⟨e, rfl⟩
  | ok noise =>
    dsimp only
    cases hc : callbackResult cb cbSteps totalLen numWarmup i t
        (scheduler_step env steps t noise x) with
    | error e => exact Or.inl ⟨e, rfl⟩
    | ok u => exact Or.inr ⟨_, rfl⟩

/-- A single loop iteration keeps an already-restored offset at
`oldOffset`: pass-through of an earlier exception, an exception in the
iteration itself, and normal completion (line 262) all leave
`oldOffset` when the accumulator already carries it. -/
theorem denoiseStep_offset (env : ModelEnv) (steps totalLen : ℕ)
    (predE : ℚ → ℕ → Except Unit ℚ)
    (cb : Option (ℕ → ℕ → ℚ → Except Unit Unit)) (cbSteps : ℕ)
    (oldOffset : ℕ) (numWarmup : ℤ)
    (acc : Except Unit ℚ × ℕ) (it : ℕ × ℕ) (h : acc.2 = oldOffset) :
    (denoiseStep env steps totalLen predE cb cbSteps oldOffset numWarmup
      acc it).2 = oldOffset := by
  rcases acc with ⟨a, o⟩
  cases a with
  | error e =>
    rw [denoiseStep_err]
    exact h
  | ok x =>
    rcases denoiseStep_cases env steps totalLen predE cb cbSteps oldOffset
        numWarmup x o it with ⟨e, he⟩ | ⟨y, hy⟩
    · rw [he]
      exact h
    · rw [hy]

/-- Once an iteration of `ddim_denoising` has completed (its line 262
ran), the offset carried forward is `oldOffset`, and every later exit
— normal or exceptional — reports it. -/
theorem denoiseFold_offset (env : ModelEnv) (steps totalLen : ℕ)
    (predE : ℚ → ℕ → Except Unit ℚ)
    (cb : Option (ℕ → ℕ → ℚ → Except Unit Unit)) (cbSteps : ℕ)
    (oldOffset : ℕ) (numWarmup : ℤ) :
    ∀ (l : List (ℕ × ℕ)) (acc : Except Unit ℚ × ℕ), acc.2 = oldOffset →
      (l.foldl (denoiseStep env steps totalLen predE cb cbSteps oldOffset
        numWarmup) acc).2 = oldOffset
  | [], _, h => h
  | it :: rest, acc, h => by
    rw [List.foldl_cons]
    exact denoiseFold_offset env steps totalLen predE cb cbSteps oldOffset
      numWarmup rest _
      (denoiseStep_offset env steps totalLen predE cb cbSteps oldOffset
        numWarmup acc it h)

/-- A raised exception passes through the remaining iterations
untouched. -/
theorem denoiseFold_error (env : ModelEnv) (steps totalLen : ℕ)
    (predE : ℚ → ℕ → Except Unit ℚ)
    (cb : Option (ℕ → ℕ → ℚ → Except Unit Unit)) (cbSteps : ℕ)
    (oldOffset : ℕ) (numWarmup : ℤ) :
    ∀ (l : List (ℕ × ℕ)) (acc : Except Unit ℚ × ℕ) (e : Unit),
      acc.1 = Except.error e →
      l.foldl (denoiseStep env steps totalLen predE cb cbSteps oldOffset
        numWarmup) acc = acc
  | [], _, _, _ => rfl
  | it :: rest, acc, e, h => by
    have hstep : denoiseStep env steps totalLen predE cb cbSteps oldOffset
        numWarmup acc it = acc := by
      rcases acc with ⟨a, o⟩
      cases a with
      | error e2 => rw [denoiseStep_err]
      | ok x => exact absurd h (by simp)
    rw [List.foldl_cons, hstep]
    exact denoiseFold_error env steps totalLen predE cb cbSteps oldOffset
      numWarmup rest acc e h

/-- When an iteration starts from a live (non-raised) accumulator and
ends without raising, it has executed line 262: the offset component
of its result is `oldOffset`. -/
theorem denoiseStep_ok_offset (env : ModelEnv) (steps totalLen : ℕ)
    (predE : ℚ → ℕ → Except Unit ℚ)
    (cb : Option (ℕ → ℕ → ℚ → Except Unit Unit)) (cbSteps : ℕ)
    (oldOffset : ℕ) (numWarmup : ℤ)
    (x : ℚ) (off : ℕ) (it : ℕ × ℕ) (y : ℚ)
    (h : (denoiseStep env steps totalLen predE cb cbSteps oldOffset numWarmup
      (Except.ok x, off) it).1 = Except.ok y) :
    (denoiseStep env steps totalLen predE cb cbSteps oldOffset numWarmup
      (Except.ok x, off) it).2 = oldOffset := by
  rcases denoiseStep_cases env steps totalLen predE cb cbSteps oldOffset
      numWarmup x off it with ⟨e, he⟩ | ⟨y2, hy⟩
  · rw [he] at h
    exact absurd h (by simp)
  · rw [hy]

/-- C4 counterexample: `ddim_denoising` restores `steps_offset` only at
the END of each loop iteration (line 262, after the callback), so a
callback that raises in the very first iteration exits the call with
the temporary override `0` still in place.  Concretely: pre-call
offset `1`, one inference step, strength `1`, a succeeding noise
predictor and an always-raising callback — the call exits
exceptionally with offset `0 ≠ 1`. -/
theorem steps_offset_restore_counterexample :
    (ddim_denoising_st ⟨fun q => q, fun _ => 1, fun _ _ => 0, fun _ _ => 0⟩
        (fun _ _ => Except.ok 0) (some (fun _ _ _ => Except.error ())) 1
        1 1 0 1).1 = Except.error () ∧
    (ddim_denoising_st ⟨fun q => q, fun _ => 1, fun _ _ => 0, fun _ _ => 0⟩
        (fun _ _ => Except.ok 0) (some (fun _ _ _ => Except.error ())) 1
        1 1 0 1).2 = 0 ∧
    (0 : ℕ) ≠ 1 := by
  have ht : t_enc 1 1 = 1 := by
    have hf : ⌊(1 : ℚ) * (1 : ℕ)⌋ = 1 := by norm_num
    unfold t_enc
    rw [hf]
    rfl
  have hu : usedTimesteps 1 1 = [0] := by
    rw [usedTimesteps, ht]
    rfl
  refine ⟨?_, ?_, by omega⟩ <;>
    simp [ddim_denoising_st, hu, ht, denoiseIter, denoiseStep,
      callbackResult, scheduler_order]

/-- C4 amended: `ddim_noising` restores the pre-call `steps_offset` on
its (only) exit path, and `ddim_denoising` restores it whenever the
call RETURNS NORMALLY (for any positive step count, strength,
predictor and callback); but the restoration is not exception-safe —
see the counterexample for a raising first-iteration callback leaving
the override `0` in place. -/
theorem steps_offset_restored (env : ModelEnv)
    (predE : ℚ → ℕ → Except Unit ℚ)
    (cb : Option (ℕ → ℕ → ℚ → Except Unit Unit)) (cbSteps : ℕ)
    (steps : ℕ) (strength : ℚ) (x0 noise : ℚ) (off : ℕ) (v : ℚ)
    (hs : 1 ≤ steps)
    (hok : (ddim_denoising_st env predE cb cbSteps steps strength x0 off).1 =
      Except.ok v) :
    (ddim_noising_st env steps strength x0 noise off).2 = off ∧
    (ddim_denoising_st env predE cb cbSteps steps strength x0 off).2 = off := by
  refine ⟨rfl, ?_⟩
  have hne : usedTimesteps steps strength ≠ [] := by
    have hlen : (usedTimesteps steps strength).length ≠ 0 := by
      rw [usedTimesteps, sliceLast_length, set_timesteps_length]
      split <;> omega
    intro hnil
    rw [hnil] at hlen
    exact hlen rfl
  rw [ddim_denoising_st] at hok ⊢
  rw [denoiseIter] at hok ⊢
  rcases he : (usedTimesteps steps strength).enum with _ | ⟨it, rest⟩
  · exact absurd (List.enum_eq_nil.mp he) hne
  · rw [he] at hok
    rw [List.foldl_cons] at hok ⊢
    cases hs1 : (denoiseStep env steps (usedTimesteps steps strength).length
        predE cb cbSteps off
        ((usedTimesteps steps strength).length -
          (t_enc strength steps : ℤ) * scheduler_order)
        (Except.ok x0, 0) it).1 with
    | error e =>
      rw [denoiseFold_error env steps _ predE cb cbSteps off _ rest _ e hs1]
        at hok
      exact absurd (hs1.symm.trans hok) (by simp)
    | ok y =>
      exact denoiseFold_offset env steps _ predE cb cbSteps off _ rest _
        (denoiseStep_ok_offset env steps _ predE cb cbSteps off _ x0 0 it y
          hs1)

/-- Witness for `steps_offset_restored`: one step, strength `1`, a
succeeding predictor, no callback, pre-call offset `1` — the call
returns normally with value `0` and the offset back at `1`. -/
theorem steps_offset_restored_witness :
    ((1 : ℕ) ≤ 1 ∧
      (ddim_denoising_st
          ⟨fun q => if q = 1 then 1 else 0, fun _ => 1, fun _ _ => 0,
            fun _ _ => 0⟩
          (fun _ _ => Except.ok 0) none 1 1 1 0 1).1 = Except.ok 0) ∧
    ((ddim_noising_st
        ⟨fun q => if q = 1 then 1 else 0, fun _ => 1, fun _ _ => 0,
          fun _ _ => 0⟩ 1 1 0 0 1).2 = 1 ∧
      (ddim_denoising_st
          ⟨fun q => if q = 1 then 1 else 0, fun _ => 1, fun _ _ => 0,
            fun _ _ => 0⟩
          (fun _ _ => Except.ok 0) none 1 1 1 0 1).2 = 1) := by
  have ht : t_enc 1 1 = 1 := by
    have hf : ⌊(1 : ℚ) * (1 : ℕ)⌋ = 1 := by norm_num
    unfold t_enc
    rw [hf]
    rfl
  have hu : usedTimesteps 1 1 = [0] := by
    rw [usedTimesteps, ht]
    rfl
  have hok : (ddim_denoising_st
      ⟨fun q => if q = 1 then 1 else 0, fun _ => 1, fun _ _ => 0,
        fun _ _ => 0⟩
      (fun _ _ => Except.ok 0) none 1 1 1 0 1).1 = Except.ok 0 := by
    simp [ddim_denoising_st, hu, ht, denoiseIter, denoiseStep,
      callbackResult, scheduler_order, scheduler_step]
  exact ⟨⟨le_refl 1, hok⟩,
    steps_offset_restored _ _ none 1 1 1 0 0 1 0 (le_refl 1) hok⟩

/-! ### Claim C5 -/

theorem zipWith_max_min (l1 l2 : List ℚ) (h : l1.length = l2.length) :
    List.zipWith max (List.zipWith min l1 l2) l2 = l2 := by
  induction l2 generalizing l1 with
  | nil => simp
  | cons b t ih =>
    cases l1 with
    | nil => simp at h
    | cons a s =>
      simp only [List.zipWith_cons_cons]
      rw [ih s (by simpa using h)]
      congr 1
      exact max_eq_right (min_le_right a b)

/-- C5 counterexample: with the decoded mel element `5` and original
input mel element `3` (so `decoded ≥ original`), the claim says the
clip-requested edit pipeline returns the DECODED value `5`; the code's
`torch.maximum(torch.minimum(decoded, mel), mel)` returns `3` — the
original.  Run through `edit_audio_with_ddim` with identity
collaborators, a decoder producing `5`, `clipping = true` and the mel
return path. -/
theorem clip_claim_counterexample :
    edit_audio_with_ddim
        ⟨id, id, id, id, fun _ => ⟨[1, 1, 1024, 64], [5]⟩, id⟩ true
        ⟨[1, 1, 1024, 64], [3]⟩ 5 "mel" true
      = Except.ok (EditOut.mel ⟨[1, 1, 1024, 64], [3]⟩) ∧
    ((5 : ℚ) ≥ 3 ∧ (3 : ℚ) ≠ 5) := by
  refine ⟨?_, by norm_num, by norm_num⟩
  simp [edit_audio_with_ddim, editTail, clip_mel, maxAbs, lastTwo]

/-- C5 amended: when clip is requested the pipeline's
`max(min(decoded, original), original)` is identically the ORIGINAL
input mel — for like-shaped tensors every data element of the clipped
result equals the original's, regardless of whether `decoded ≥
original`; the expression is a constant overwrite, not a one-sided
floor. -/
theorem clip_mel_is_original (decoded original : Tensor)
    (h : decoded.data.length = original.data.length) :
    (clip_mel decoded original).data = original.data ∧
    (clip_mel decoded original).shape = decoded.shape :=
  ⟨zipWith_max_min decoded.data original.data h, rfl⟩

/-- Witness for `clip_mel_is_original` on concrete like-shaped tensors
with both orderings of decoded versus original elements. -/
theorem clip_mel_is_original_witness :
    ((⟨[1, 1, 1024, 64], [5, 2]⟩ : Tensor).data.length =
      (⟨[1, 1, 1024, 64], [3, 4]⟩ : Tensor).data.length) ∧
    ((clip_mel ⟨[1, 1, 1024, 64], [5, 2]⟩ ⟨[1, 1, 1024, 64], [3, 4]⟩).data =
        [3, 4] ∧
      (clip_mel ⟨[1, 1, 1024, 64], [5, 2]⟩ ⟨[1, 1, 1024, 64], [3, 4]⟩).shape =
        [1, 1, 1024, 64]) :=
  ⟨rfl, clip_mel_is_original ⟨[1, 1, 1024, 64], [5, 2]⟩
    ⟨[1, 1, 1024, 64], [3, 4]⟩ rfl⟩

/-! ### Claim C6 -/

/-- C6 counterexample: the code contains no guidance-scale validation
and no `ConfigError`; with `guidance_scale = -1` (negative),
`ddim_denoising` simply has `do_cfg = (-1 > 1.0) = False` and runs the
full sampling loop.  Concretely, with 2 inference steps, strength 1, a
schedule with `alphas_cumprod[500] = 9/25` (square roots `3/5`, `4/5`,
`1` supplied exactly) and a zero noise prediction, the call returns
`5/3` from input latent `1`: sampling DID run and the state changed,
instead of failing at entry with no sampling. -/
theorem negative_guidance_counterexample :
    ddim_denoising
        ⟨fun q => if q = 9/25 then 3/5 else if q = 16/25 then 4/5
            else if q = 1 then 1 else 0,
          fun t => if t = 500 then 9/25 else 1,
          fun _ _ => 0, fun _ _ => 0⟩
        (-1) 2 1 1 = 5/3 ∧ (5/3 : ℚ) ≠ 1 := by
  have ht : t_enc 1 2 = 2 := by
    have hf : ⌊(1 : ℚ) * (2 : ℕ)⌋ = 2 := by norm_num
    unfold t_enc
    rw [hf]
    rfl
  have hu : usedTimesteps 2 1 = [500, 0] := by
    rw [usedTimesteps, ht]
    rfl
  constructor
  · rw [ddim_denoising, hu]
    norm_num [noisePredAt, scheduler_step]
  · norm_num

/-- C6 amended: a negative `guidance_scale` is NOT rejected — there is
no `ConfigError` and no entry validation; it merely makes `do_cfg =
guidance_scale > 1.0` false, so the call runs the full sampling loop
exactly as a guidance-disabled run (no batch doubling, raw conditional
prediction), for every environment, step count, strength and start
latent. -/
theorem negative_guidance_runs_uncfg (env : ModelEnv) (gs : ℚ)
    (steps : ℕ) (strength x0 : ℚ) (h : gs < 0) :
    ddim_denoising env gs steps strength x0 =
      ddim_denoising_nocfg env steps strength x0 := by
  have hb : (decide (gs > 1)) = false := decide_eq_false (by linarith)
  unfold ddim_denoising ddim_denoising_nocfg noisePredAt
  rw [hb]
  simp

/-- Witness for `negative_guidance_runs_uncfg` at `guidance_scale = -1`
on a concrete environment. -/
theorem negative_guidance_runs_uncfg_witness :
    ((-1 : ℚ) < 0) ∧
    ddim_denoising ⟨fun q => q, fun _ => 1, fun _ _ => 2, fun _ _ => 3⟩
        (-1) 1 1 0 =
      ddim_denoising_nocfg ⟨fun q => q, fun _ => 1, fun _ _ => 2, fun _ _ => 3⟩
        1 1 0 :=
  ⟨by norm_num,
    negative_guidance_runs_uncfg
      ⟨fun q => q, fun _ => 1, fun _ _ => 2, fun _ _ => 3⟩ (-1) 1 1 0
      (by norm_num)⟩

/-! ### Claim C7 -/

/-- C7 confirmed: `ddim_noising` applies the closed-form single-step
forward equation `x_t = sqrt(alpha_cumprod[t]) * x_0 +
sqrt(1 - alpha_cumprod[t]) * noise` once, at the target timestep
`all_timesteps[-t_enc]`, with one injected noise sample (no iterative
re-noising); and whenever the square root of the target alpha is
nonzero, algebraically inverting that equation with the same noise and
timestep reconstructs `x_0` exactly (round-trip law). -/
theorem ddim_noising_closed_form (env : ModelEnv) (steps : ℕ)
    (strength x0 noise : ℚ)
    (h : env.sqrtFn (env.alphas_cumprod (noiseTarget steps strength)) ≠ 0) :
    ddim_noising env steps strength x0 noise =
      env.sqrtFn (env.alphas_cumprod (noiseTarget steps strength)) * x0 +
        env.sqrtFn (1 - env.alphas_cumprod (noiseTarget steps strength)) *
          noise ∧
    (ddim_noising env steps strength x0 noise -
        env.sqrtFn (1 - env.alphas_cumprod (noiseTarget steps strength)) *
          noise) /
      env.sqrtFn (env.alphas_cumprod (noiseTarget steps strength)) = x0 := by
  refine ⟨rfl, ?_⟩
  unfold ddim_noising add_noise
  field_simp

/-- Witness for `ddim_noising_closed_form`: one inference step,
strength 1 (target timestep 0), unit alpha, latent 2, noise 5. -/
theorem ddim_noising_closed_form_witness :
    ((ModelEnv.mk (fun q => if q = 1 then 1 else 0) (fun _ => 1)
        (fun _ _ => 0) (fun _ _ => 0)).sqrtFn
      ((ModelEnv.mk (fun q => if q = 1 then 1 else 0) (fun _ => 1)
        (fun _ _ => 0) (fun _ _ => 0)).alphas_cumprod (noiseTarget 1 1)) ≠ 0) ∧
    (ddim_noising (ModelEnv.mk (fun q => if q = 1 then 1 else 0) (fun _ => 1)
        (fun _ _ => 0) (fun _ _ => 0)) 1 1 2 5 =
      (ModelEnv.mk (fun q => if q = 1 then 1 else 0) (fun _ => 1)
        (fun _ _ => 0) (fun _ _ => 0)).sqrtFn
          ((ModelEnv.mk (fun q => if q = 1 then 1 else 0) (fun _ => 1)
            (fun _ _ => 0) (fun _ _ => 0)).alphas_cumprod
            (noiseTarget 1 1)) * 2 +
        (ModelEnv.mk (fun q => if q = 1 then 1 else 0) (fun _ => 1)
          (fun _ _ => 0) (fun _ _ => 0)).sqrtFn
          (1 - (ModelEnv.mk (fun q => if q = 1 then 1 else 0) (fun _ => 1)
            (fun _ _ => 0) (fun _ _ => 0)).alphas_cumprod
            (noiseTarget 1 1)) * 5 ∧
      (ddim_noising (ModelEnv.mk (fun q => if q = 1 then 1 else 0)
          (fun _ => 1) (fun _ _ => 0) (fun _ _ => 0)) 1 1 2 5 -
        (ModelEnv.mk (fun q => if q = 1 then 1 else 0) (fun _ => 1)
          (fun _ _ => 0) (fun _ _ => 0)).sqrtFn
          (1 - (ModelEnv.mk (fun q => if q = 1 then 1 else 0) (fun _ => 1)
            (fun _ _ => 0) (fun _ _ => 0)).alphas_cumprod
            (noiseTarget 1 1)) * 5) /
        (ModelEnv.mk (fun q => if q = 1 then 1 else 0) (fun _ => 1)
          (fun _ _ => 0) (fun _ _ => 0)).sqrtFn
          ((ModelEnv.mk (fun q => if q = 1 then 1 else 0) (fun _ => 1)
            (fun _ _ => 0) (fun _ _ => 0)).alphas_cumprod
            (noiseTarget 1 1)) = 2) :=
  ⟨by norm_num,
    ddim_noising_closed_form
      (ModelEnv.mk (fun q => if q = 1 then 1 else 0) (fun _ => 1)
        (fun _ _ => 0) (fun _ _ => 0)) 1 1 2 5 (by norm_num)⟩

/-! ### Claim C8 -/

/-- C8 confirmed: at `guidance_scale = 1.0` the check `do_cfg =
guidance_scale > 1.0` is false, so `ddim_denoising` takes exactly the
guidance-disabled path — no batch doubling, the raw conditional
prediction fed to the scheduler step — and produces the identical
latent for every environment, step count, strength and input; and the
guidance composition at scale 1 collapses to the conditional
prediction: `u + 1 * (c - u) = c`. -/
theorem guidance_scale_one_is_nocfg (env : ModelEnv) (steps : ℕ)
    (strength x0 : ℚ) :
    ddim_denoising env 1 steps strength x0 =
      ddim_denoising_nocfg env steps strength x0 ∧
    ∀ u c : ℚ, guidance_compose 1 u c = c := by
  constructor
  · have hb : (decide ((1 : ℚ) > 1)) = false := decide_eq_false (by norm_num)
    unfold ddim_denoising ddim_denoising_nocfg noisePredAt
    rw [hb]
    simp
  · intro u c
    unfold guidance_compose
    ring

/-! ### Claim C9 -/

/-- The mel-return branch of the shared pipeline tail does not inspect
the requested duration: duration is only read on the waveform branch
(line 342 / 424), after the mel return. -/
theorem editTail_mel_duration (env : EditEnv) (mel ms : Tensor)
    (d d' : ℚ) (c : Bool) :
    editTail env mel ms d "mel" c = editTail env mel ms d' "mel" c := rfl

/-- Whatever mel tensor the `"mel"` branch returns has passed the
`shape[-2:] == (1024, 64)` assertion (line 335 / 419). -/
theorem editTail_mel_shape (env : EditEnv) (mel ms : Tensor) (d : ℚ)
    (c : Bool) (m : Tensor)
    (h : editTail env mel ms d "mel" c = Except.ok (EditOut.mel m)) :
    lastTwo m.shape = [1024, 64] := by
  unfold editTail at h
  rw [if_pos rfl] at h
  split at h <;> split at h <;>
    first
      | (rename_i hsh; cases h; exact hsh)
      | exact Except.noConfusion h

/-- The whole mel-return path of both edit operations is independent of
the requested duration. -/
theorem edit_mel_ignores_duration (env : EditEnv) (b : Bool)
    (mel : Tensor) (d d' : ℚ) (c : Bool) :
    edit_audio_with_ddim env b mel d "mel" c =
      edit_audio_with_ddim env b mel d' "mel" c ∧
    edit_audio_with_ddim_inversion_sampling env b mel d "mel" c =
      edit_audio_with_ddim_inversion_sampling env b mel d' "mel" c := by
  constructor
  · unfold edit_audio_with_ddim
    split_ifs <;> first | rfl | apply editTail_mel_duration
  · unfold edit_audio_with_ddim_inversion_sampling
    split_ifs <;> first | rfl | apply editTail_mel_duration

/-- C9 confirmed: whenever an edit call (either variant) returns a mel
tensor (`return_kind == "mel"`), that tensor's trailing two dimensions
are exactly `(1024, 64)` — enforced by the assertion guarding the
return — and the same call with ANY other requested duration returns
the very same tensor: the duration argument does not affect the
mel-return path. -/
theorem mel_return_resolution (env : EditEnv) (b c : Bool)
    (mel m m2 : Tensor) (d d2 d' : ℚ)
    (h1 : edit_audio_with_ddim env b mel d "mel" c =
      Except.ok (EditOut.mel m))
    (h2 : edit_audio_with_ddim_inversion_sampling env b mel d2 "mel" c =
      Except.ok (EditOut.mel m2)) :
    lastTwo m.shape = [1024, 64] ∧ lastTwo m2.shape = [1024, 64] ∧
    edit_audio_with_ddim env b mel d' "mel" c =
      Except.ok (EditOut.mel m) ∧
    edit_audio_with_ddim_inversion_sampling env b mel d' "mel" c =
      Except.ok (EditOut.mel m2) := by
  refine ⟨?_, ?_,
    (edit_mel_ignores_duration env b mel d' d c).1.trans h1,
    (edit_mel_ignores_duration env b mel d' d2 c).2.trans h2⟩
  · unfold edit_audio_with_ddim at h1
    split_ifs at h1 <;>
      first
        | exact editTail_mel_shape env mel _ d c m h1
        | simp at h1
  · unfold edit_audio_with_ddim_inversion_sampling at h2
    split_ifs at h2 <;>
      first
        | exact editTail_mel_shape env mel _ d2 c m2 h2
        | simp at h2

/-- Witness for `mel_return_resolution`: identity collaborators, a
4-dimensional mel of shape `[1, 1, 1024, 64]`, durations 5 and 999. -/
theorem mel_return_resolution_witness :
    (edit_audio_with_ddim
        ⟨id, id, id, id, id, id⟩ true ⟨[1, 1, 1024, 64], [2]⟩ 5 "mel" false =
      Except.ok (EditOut.mel ⟨[1, 1, 1024, 64], [2]⟩) ∧
      edit_audio_with_ddim_inversion_sampling
        ⟨id, id, id, id, id, id⟩ true ⟨[1, 1, 1024, 64], [2]⟩ 7 "mel" false =
      Except.ok (EditOut.mel ⟨[1, 1, 1024, 64], [2]⟩)) ∧
    (lastTwo (Tensor.mk [1, 1, 1024, 64] [2]).shape = [1024, 64] ∧
      lastTwo (Tensor.mk [1, 1, 1024, 64] [2]).shape = [1024, 64] ∧
      edit_audio_with_ddim
        ⟨id, id, id, id, id, id⟩ true ⟨[1, 1, 1024, 64], [2]⟩ 999 "mel" false =
        Except.ok (EditOut.mel ⟨[1, 1, 1024, 64], [2]⟩) ∧
      edit_audio_with_ddim_inversion_sampling
        ⟨id, id, id, id, id, id⟩ true ⟨[1, 1, 1024, 64], [2]⟩ 999 "mel" false =
        Except.ok (EditOut.mel ⟨[1, 1, 1024, 64], [2]⟩)) := by
  have g1 : edit_audio_with_ddim
      ⟨id, id, id, id, id, id⟩ true ⟨[1, 1, 1024, 64], [2]⟩ 5 "mel" false =
      Except.ok (EditOut.mel ⟨[1, 1, 1024, 64], [2]⟩) := by
    simp [edit_audio_with_ddim, editTail, maxAbs, lastTwo]
    norm_num
  have g2 : edit_audio_with_ddim_inversion_sampling
      ⟨id, id, id, id, id, id⟩ true ⟨[1, 1, 1024, 64], [2]⟩ 7 "mel" false =
      Except.ok (EditOut.mel ⟨[1, 1, 1024, 64], [2]⟩) := by
    simp [edit_audio_with_ddim_inversion_sampling, editTail, maxAbs, lastTwo]
    norm_num
  exact ⟨⟨g1, g2⟩,
    mel_return_resolution ⟨id, id, id, id, id, id⟩ true false
      ⟨[1, 1, 1024, 64], [2]⟩ ⟨[1, 1, 1024, 64], [2]⟩ ⟨[1, 1, 1024, 64], [2]⟩
      5 7 999 g1 g2⟩

/-! ### Claim C10 -/

/-- C10 confirmed: both edit operations assert `self.evalmode` as their
very first action (lines 279, 368); after `train_()` (which sets
`evalmode = False`, more recently than any `eval_()`), every call —
for every environment of collaborators, every input mel, duration,
return kind and clipping flag — fails with the eval-mode assertion
error, and since the result is this same error for all collaborator
environments, no encoding or sampling is ever consulted. -/
theorem eval_mode_precondition (env : EditEnv) (b : Bool) (mel : Tensor)
    (d : ℚ) (rt : String) (c : Bool) :
    edit_audio_with_ddim env (train_mode_set b) mel d rt c =
      Except.error EditErr.evalModeAssert ∧
    edit_audio_with_ddim_inversion_sampling env (train_mode_set b) mel d rt c =
      Except.error EditErr.evalModeAssert ∧
    eval_mode_set (train_mode_set b) = true :=
  ⟨rfl, rfl, rfl⟩

end AudioLDM2
